import Mathlib

/-!
Shallow embedding of the email-based two-factor authentication core of the
dockside-helper repository: the `verify-2fa-code` and `request-2fa-code`
edge-function handlers, the `two_factor_codes` / `failed_login_attempts`
tables, and the SQL cleanup functions `cleanup_expired_2fa_codes` and
`cleanup_old_failed_attempts`.

Timestamps are modelled as integers in milliseconds (JavaScript `Date.now()`
scale).  Database tables are lists of rows; the external account store
(`supabase.auth.admin.listUsers`) is a list of accounts passed as a
parameter.  The random draw of `Math.random()` is modelled as a rational
`r` with `0 ≤ r < 1`; the insert- and mail-dispatch failure branches of the
request handler are modelled by boolean oracles `storeOk` / `dispatchOk`.
-/

/-- An account of the external account store (a Supabase auth user), as seen
by the 2FA edge functions: an opaque id and an email address. -/
structure Account where
  id : Nat
  email : String
  deriving Repr, DecidableEq

/-- A row of the `two_factor_codes` table. -/
structure OneTimeCode where
  id : Nat
  user_id : Nat
  code : String
  expires_at : Int
  used : Bool
  created_at : Int
  deriving Repr, DecidableEq

/-- A row of the `failed_login_attempts` table. -/
structure AttemptRecord where
  identifier : String
  attempt_time : Int
  deriving Repr, DecidableEq

/-- The persistent state the two handlers touch: the two tables, plus a
counter used to generate fresh row ids for inserts. -/
structure Store where
  codes : List OneTimeCode
  attempts : List AttemptRecord
  nextId : Nat
  deriving Repr, DecidableEq

/-- Five minutes in milliseconds (`5 * 60 * 1000` in the verify handler). -/
def fiveMinutesMs : Int := 5 * 60 * 1000

/-- Fifteen minutes in milliseconds (`15 * 60 * 1000` in the request handler). -/
def fifteenMinutesMs : Int := 15 * 60 * 1000

/-- Ten minutes in milliseconds (the code TTL in the request handler). -/
def tenMinutesMs : Int := 10 * 60 * 1000

/-- One hour in milliseconds (`interval '1 hour'` in `cleanup_expired_2fa_codes`). -/
def oneHourMs : Int := 60 * 60 * 1000

/-- Twenty-four hours in milliseconds (`interval '24 hours'` in
`cleanup_old_failed_attempts`). -/
def twentyFourHoursMs : Int := 24 * 60 * 60 * 1000

/-- The rate-limit query of both handlers: the number of
`failed_login_attempts` rows with the given identifier and
`attempt_time >= since` (the handlers use `.gte("attempt_time", cutoff)`). -/
def countRecent (attempts : List AttemptRecord) (ident : String) (since : Int) : Nat :=
  (attempts.filter (fun a => a.identifier == ident && decide (since ≤ a.attempt_time))).length

/-- The attempt-tracking insert of the verify handler:
`supabase.from("failed_login_attempts").insert({identifier, attempt_time})`. -/
def recordAttempt (st : Store) (ident : String) (now : Int) : Store :=
  { st with attempts := st.attempts ++ [{ identifier := ident, attempt_time := now }] }

/-- The row filter of the verify handler's code query:
`user_id = uid AND used = false AND expires_at > now`. -/
def isActive (uid : Nat) (now : Int) (c : OneTimeCode) : Bool :=
  c.user_id == uid && c.used == false && decide (now < c.expires_at)

/-- The verify handler's code lookup: rows matching `isActive`, ordered by
`created_at` descending, limited to one.  Modelled as picking a row of
maximal `created_at` among the matching rows (none if there are none). -/
def findActive (codes : List OneTimeCode) (uid : Nat) (now : Int) : Option OneTimeCode :=
  (codes.filter (isActive uid now)).foldl
    (fun acc c =>
      match acc with
      | none => some c
      | some b => if b.created_at < c.created_at then some c else some b)
    none

/-- The verify handler's consumption step:
`update({used: true}).eq("id", cid)` — an unconditional update by row id. -/
def markUsed (st : Store) (cid : Nat) : Store :=
  { st with codes := st.codes.map (fun c => if c.id == cid then { c with used := true } else c) }

/-- The SQL function `cleanup_expired_2fa_codes`:
`DELETE FROM two_factor_codes WHERE expires_at < now() - interval '1 hour'`. -/
def cleanup_expired_2fa_codes (st : Store) (now : Int) : Store :=
  { st with codes := st.codes.filter (fun c => !decide (c.expires_at < now - oneHourMs)) }

/-- The SQL function `cleanup_old_failed_attempts`:
`DELETE FROM failed_login_attempts WHERE attempt_time < now() - interval '24 hours'`. -/
def cleanup_old_failed_attempts (st : Store) (now : Int) : Store :=
  { st with attempts := st.attempts.filter (fun a => !decide (a.attempt_time < now - twentyFourHoursMs)) }

/-- Outcome of the `verify-2fa-code` handler. -/
inductive VerOutcome
  | verified (userId : Nat)
  | invalid
  | rateLimited
  | validationError
  deriving Repr, DecidableEq

/-- The `verify-2fa-code` handler (post request-parsing), returning the
outcome and the updated store.  Mirrors the source line by line: missing
field check, 5-minute/10-attempt rate limit, user lookup, active-code
lookup, exact string comparison, mark-used plus the two cleanups. -/
def verifyCode (users : List Account) (st : Store) (email code : String) (now : Int) :
    VerOutcome × Store :=
  if email = "" ∨ code = "" then (.validationError, st)
  else if 10 ≤ countRecent st.attempts email (now - fiveMinutesMs) then
    (.rateLimited, st)
  else
    match users.find? (fun u => u.email == email) with
    | none => (.invalid, recordAttempt st email now)
    | some user =>
      match findActive st.codes user.id now with
      | none => (.invalid, recordAttempt st email now)
      | some storedCode =>
        if storedCode.code ≠ code then (.invalid, recordAttempt st email now)
        else
          (.verified user.id,
            cleanup_old_failed_attempts
              (cleanup_expired_2fa_codes (markUsed st storedCode.id) now) now)

/-- Outcome of the `request-2fa-code` handler.  `sent` covers both 200
responses (known account with mail dispatched, and the success-shaped
response for an unknown email); `storeFailed` and `dispatchFailed` are the
two 500 branches. -/
inductive ReqOutcome
  | sent
  | rateLimited
  | storeFailed
  | dispatchFailed
  | validationError
  deriving Repr, DecidableEq

/-- Result of the `request-2fa-code` handler: outcome, updated store, and
whether the mail dispatcher (the Resend API) was invoked. -/
structure ReqResult where
  outcome : ReqOutcome
  store : Store
  dispatched : Bool
  deriving Repr, DecidableEq

/-- The `request-2fa-code` handler (post request-parsing, auth header
present).  Mirrors the source: missing-email check, 15-minute/5-attempt
rate limit, user lookup (unknown email answered with a success-shaped
response), delete of all unused codes for the account, insert of the fresh
code with a 10-minute expiry (`storeOk = false` models the insert-error
branch), then mail dispatch (`dispatchOk = false` models the failed-send
branch).  `code` is the string produced by the code generator. -/
def requestCode (users : List Account) (st : Store) (email : String) (now : Int)
    (code : String) (storeOk dispatchOk : Bool) : ReqResult :=
  if email = "" then ⟨.validationError, st, false⟩
  else if 5 ≤ countRecent st.attempts email (now - fifteenMinutesMs) then
    ⟨.rateLimited, st, false⟩
  else
    match users.find? (fun u => u.email == email) with
    | none => ⟨.sent, st, false⟩
    | some user =>
      let deleted : Store :=
        { st with codes := st.codes.filter (fun c => !(c.user_id == user.id && c.used == false)) }
      if !storeOk then ⟨.storeFailed, deleted, false⟩
      else
        let newRow : OneTimeCode :=
          { id := deleted.nextId, user_id := user.id, code := code,
            expires_at := now + tenMinutesMs, used := false, created_at := now }
        let stored : Store :=
          { deleted with codes := deleted.codes ++ [newRow], nextId := deleted.nextId + 1 }
        if !dispatchOk then ⟨.dispatchFailed, stored, true⟩
        else ⟨.sent, stored, true⟩

/-- One `request-2fa-code` invocation's inputs (email, request time, the
generated code, and the two failure oracles). -/
structure ReqInput where
  email : String
  now : Int
  code : String
  storeOk : Bool
  dispatchOk : Bool
  deriving Repr, DecidableEq

/-- Fold a sequence of `request-2fa-code` calls over the store. -/
def applyRequests (users : List Account) (st : Store) : List ReqInput → Store
  | [] => st
  | i :: is => applyRequests users (requestCode users st i.email i.now i.code i.storeOk i.dispatchOk).store is

/-- The numeric value produced by the request handler's code generator:
`Math.floor(100000 + Math.random() * 900000)` with the draw of
`Math.random()` modelled as a rational `r`. -/
def genVal (r : ℚ) : Nat := ⌊(100000 : ℚ) + r * 900000⌋₊

/-- The generated code string: the decimal rendering (`.toString()`) of
`genVal`. -/
def genCode (r : ℚ) : String := Nat.repr (genVal r)

/-- Result of the read phase of a `verify-2fa-code` call: either the call
finished during its reads (validation error, throttle, or one of the
rejection branches, whose attempt insert is part of the result state), or
it passed the string comparison and is about to write `used = true` to row
`cid` on behalf of user `uid`. -/
inductive ReadResult
  | reject (out : VerOutcome) (st : Store)
  | proceed (uid : Nat) (cid : Nat)
  deriving Repr, DecidableEq

/-- The read phase of the `verify-2fa-code` handler: everything up to and
including the code comparison, with no write to `two_factor_codes`. -/
def verifyRead (users : List Account) (st : Store) (email code : String) (now : Int) :
    ReadResult :=
  if email = "" ∨ code = "" then .reject .validationError st
  else if 10 ≤ countRecent st.attempts email (now - fiveMinutesMs) then
    .reject .rateLimited st
  else
    match users.find? (fun u => u.email == email) with
    | none => .reject .invalid (recordAttempt st email now)
    | some user =>
      match findActive st.codes user.id now with
      | none => .reject .invalid (recordAttempt st email now)
      | some storedCode =>
        if storedCode.code ≠ code then .reject .invalid (recordAttempt st email now)
        else .proceed user.id storedCode.id

/-- The write phase of a successful `verify-2fa-code` call: the
unconditional `update({used: true}).eq("id", cid)` followed by the two
cleanups, returning `verified`.  Note it does not re-check `used`. -/
def verifyWrite (st : Store) (uid cid : Nat) (now : Int) : VerOutcome × Store :=
  (.verified uid,
    cleanup_old_failed_attempts (cleanup_expired_2fa_codes (markUsed st cid) now) now)

/-- Two concurrent `verify-2fa-code` calls with identical arguments,
interleaved so that both perform their reads against the same initial
store before either performs its write (read-A, read-B, write-A, write-B).
Returns the two callers' outcomes. -/
def racyVerifyPair (users : List Account) (st : Store) (email code : String) (now : Int) :
    VerOutcome × VerOutcome :=
  match verifyRead users st email code now with
  | .reject out _ => (out, out)
  | .proceed uid cid =>
    let r1 := verifyWrite st uid cid now
    let r2 := verifyWrite r1.2 uid cid now
    (r1.1, r2.1)

/-- The unused (`used = false`) rows of the code store belonging to a given
account, regardless of expiry. -/
def unusedFor (st : Store) (uid : Nat) : List OneTimeCode :=
  st.codes.filter (fun c => c.user_id == uid && c.used == false)

/-- Procedural invariant of the code store: at most one unused row per
account. -/
def atMostOneUnused (st : Store) : Prop :=
  ∀ uid : Nat, (unusedFor st uid).length ≤ 1

/-- The number of active (unused and unexpired at instant `now`) code rows
for a given account. -/
def activeCount (st : Store) (uid : Nat) (now : Int) : Nat :=
  (st.codes.filter (isActive uid now)).length

/-! ### Helper lemmas about filters and the code store -/

theorem length_filter_mono {α : Type} {p q : α → Bool} (l : List α)
    (h : ∀ a ∈ l, p a = true → q a = true) :
    (l.filter p).length ≤ (l.filter q).length := by
  simpa [← List.countP_eq_length_filter] using List.countP_mono_left h

theorem activeCount_le_unused (st : Store) (uid : Nat) (now : Int) :
    activeCount st uid now ≤ (unusedFor st uid).length := by
  apply length_filter_mono
  intro c _ hc
  revert hc
  unfold isActive
  cases c.user_id == uid <;> cases c.used == false <;> simp

theorem filter_isActive_eq (codes : List OneTimeCode) (uid : Nat) (now : Int) :
    codes.filter (isActive uid now)
      = (codes.filter (fun c => c.user_id == uid && c.used == false)).filter
          (fun c => decide (now < c.expires_at)) := by
  rw [List.filter_filter]
  apply List.filter_congr
  intro c _
  unfold isActive
  exact Bool.and_comm _ _

theorem findActive_of_unused_nil (st : Store) (uid : Nat) (now : Int)
    (h : unusedFor st uid = []) : findActive st.codes uid now = none := by
  unfold findActive
  rw [filter_isActive_eq]
  unfold unusedFor at h
  rw [h]
  rfl

theorem findActive_of_unused_singleton (st : Store) (uid : Nat) (now : Int) (r : OneTimeCode)
    (h : unusedFor st uid = [r]) (hexp : now < r.expires_at) :
    findActive st.codes uid now = some r := by
  unfold findActive
  rw [filter_isActive_eq]
  unfold unusedFor at h
  rw [h]
  simp [hexp]

theorem unusedFor_markUsed (st : Store) (uid : Nat) (r : OneTimeCode)
    (h : unusedFor st uid = [r]) : unusedFor (markUsed st r.id) uid = [] := by
  unfold unusedFor markUsed
  simp only []
  rw [List.filter_eq_nil_iff]
  intro c hc hp
  rcases List.mem_map.mp hc with ⟨c0, hc0, rfl⟩
  by_cases hid : (c0.id == r.id) = true
  · simp [hid] at hp
  · simp only [Bool.not_eq_true] at hid
    simp only [hid, Bool.false_eq_true, if_false] at hp
    have hmem : c0 ∈ unusedFor st uid := List.mem_filter.mpr ⟨hc0, hp⟩
    rw [h] at hmem
    have := List.mem_singleton.mp hmem
    subst this
    simp at hid

theorem unusedFor_cleanup_codes (st : Store) (uid : Nat) (now : Int)
    (h : unusedFor st uid = []) :
    unusedFor (cleanup_expired_2fa_codes st now) uid = [] := by
  unfold unusedFor cleanup_expired_2fa_codes
  simp only []
  rw [List.filter_eq_nil_iff]
  unfold unusedFor at h
  rw [List.filter_eq_nil_iff] at h
  intro c hc hp
  exact h c (List.mem_filter.mp hc).1 hp

theorem unusedFor_cleanup_attempts (st : Store) (uid : Nat) (now : Int) :
    unusedFor (cleanup_old_failed_attempts st now) uid = unusedFor st uid := rfl

theorem atMostOneUnused_of_codes_delete (st st' : Store) (w : Nat)
    (h : st'.codes = st.codes.filter (fun c => !(c.user_id == w && c.used == false)))
    (hinv : atMostOneUnused st) : atMostOneUnused st' := by
  intro uid
  unfold unusedFor
  rw [h, List.filter_filter]
  refine le_trans ?_ (hinv uid)
  unfold unusedFor
  apply length_filter_mono
  intro c _ hc
  exact (Bool.and_eq_true _ _ |>.mp hc).1

theorem atMostOneUnused_of_codes_insert (st st' : Store) (w : Nat) (row : OneTimeCode)
    (hrow : row.user_id = w)
    (h : st'.codes = st.codes.filter (fun c => !(c.user_id == w && c.used == false)) ++ [row])
    (hinv : atMostOneUnused st) : atMostOneUnused st' := by
  intro uid
  unfold unusedFor
  rw [h, List.filter_append, List.filter_filter]
  by_cases hu : uid = w
  · subst hu
    have hnil : st.codes.filter
        (fun a => (a.user_id == uid && a.used == false) && !(a.user_id == uid && a.used == false))
          = [] := by
      rw [List.filter_eq_nil_iff]
      intro c _ hp
      have hfalse : ∀ b : Bool, (b && !b) = false := by decide
      rw [hfalse] at hp
      exact absurd hp (by decide)
    rw [hnil, List.nil_append]
    exact le_trans (List.length_filter_le _ _) (by simp)
  · have hne : (row.user_id == uid) = false := by
      rw [hrow]
      exact beq_false_of_ne (fun hh => hu hh.symm)
    have hnil2 : [row].filter (fun c => c.user_id == uid && c.used == false) = [] := by
      simp [List.filter_cons, hne]
    rw [hnil2, List.append_nil]
    refine le_trans ?_ (hinv uid)
    unfold unusedFor
    apply length_filter_mono
    intro c _ hc
    exact (Bool.and_eq_true _ _ |>.mp hc).1

theorem requestCode_preserves_atMostOne (users : List Account) (st : Store) (email : String)
    (now : Int) (code : String) (storeOk dispatchOk : Bool) (hinv : atMostOneUnused st) :
    atMostOneUnused (requestCode users st email now code storeOk dispatchOk).store := by
  unfold requestCode
  split
  · exact hinv
  split
  · exact hinv
  split
  · exact hinv
  next user _ =>
    cases storeOk with
    | false => exact atMostOneUnused_of_codes_delete st _ user.id rfl hinv
    | true =>
      cases dispatchOk with
      | false => exact atMostOneUnused_of_codes_insert st _ user.id _ rfl rfl hinv
      | true => exact atMostOneUnused_of_codes_insert st _ user.id _ rfl rfl hinv

theorem applyRequests_preserves_atMostOne (users : List Account) (reqs : List ReqInput) :
    ∀ st : Store, atMostOneUnused st → atMostOneUnused (applyRequests users st reqs) := by
  induction reqs with
  | nil => intro st h; exact h
  | cons i is ih =>
    intro st h
    exact ih _ (requestCode_preserves_atMostOne users st i.email i.now i.code i.storeOk i.dispatchOk h)

/-! ### Branch lemmas for the verify handler -/

theorem verifyCode_throttled (users : List Account) (st : Store) (email c : String) (now : Int)
    (hv : ¬(email = "" ∨ c = ""))
    (hrl : 10 ≤ countRecent st.attempts email (now - fiveMinutesMs)) :
    verifyCode users st email c now = (.rateLimited, st) := by
  unfold verifyCode
  rw [if_neg hv, if_pos hrl]

theorem verifyCode_unknown_user (users : List Account) (st : Store) (email c : String) (now : Int)
    (hv : ¬(email = "" ∨ c = ""))
    (hrl : countRecent st.attempts email (now - fiveMinutesMs) < 10)
    (hnone : users.find? (fun u => u.email == email) = none) :
    verifyCode users st email c now = (.invalid, recordAttempt st email now) := by
  unfold verifyCode
  rw [if_neg hv, if_neg (not_le.mpr hrl), hnone]

theorem verifyCode_no_active (users : List Account) (st : Store) (email c : String) (now : Int)
    (user : Account)
    (hv : ¬(email = "" ∨ c = ""))
    (hrl : countRecent st.attempts email (now - fiveMinutesMs) < 10)
    (hfind : users.find? (fun u => u.email == email) = some user)
    (hact : findActive st.codes user.id now = none) :
    verifyCode users st email c now = (.invalid, recordAttempt st email now) := by
  unfold verifyCode
  rw [if_neg hv, if_neg (not_le.mpr hrl), hfind]
  simp only [hact]

theorem verifyCode_mismatch (users : List Account) (st : Store) (email c : String) (now : Int)
    (user : Account) (r : OneTimeCode)
    (hv : ¬(email = "" ∨ c = ""))
    (hrl : countRecent st.attempts email (now - fiveMinutesMs) < 10)
    (hfind : users.find? (fun u => u.email == email) = some user)
    (hact : findActive st.codes user.id now = some r)
    (hne : r.code ≠ c) :
    verifyCode users st email c now = (.invalid, recordAttempt st email now) := by
  unfold verifyCode
  rw [if_neg hv, if_neg (not_le.mpr hrl), hfind]
  simp only [hact]
  rw [if_pos hne]

theorem verifyCode_verified_eq (users : List Account) (st : Store) (email c : String) (now : Int)
    (user : Account) (r : OneTimeCode)
    (hv : ¬(email = "" ∨ c = ""))
    (hrl : countRecent st.attempts email (now - fiveMinutesMs) < 10)
    (hfind : users.find? (fun u => u.email == email) = some user)
    (hact : findActive st.codes user.id now = some r)
    (hmatch : r.code = c) :
    verifyCode users st email c now
      = (.verified user.id,
          cleanup_old_failed_attempts (cleanup_expired_2fa_codes (markUsed st r.id) now) now) := by
  unfold verifyCode
  rw [if_neg hv, if_neg (not_le.mpr hrl), hfind]
  simp only [hact]
  rw [if_neg (by simp [hmatch])]

theorem requestCode_attempts_eq (users : List Account) (st : Store) (email : String) (now : Int)
    (code : String) (storeOk dispatchOk : Bool) :
    (requestCode users st email now code storeOk dispatchOk).store.attempts = st.attempts := by
  unfold requestCode
  split
  · rfl
  split
  · rfl
  split
  · rfl
  next user _ =>
    cases storeOk <;> cases dispatchOk <;> rfl

/-! ### Lemmas about the code generator -/

theorem genVal_lower (r : ℚ) (h0 : 0 ≤ r) : 100000 ≤ genVal r := by
  unfold genVal
  apply Nat.le_floor
  have h : (0 : ℚ) ≤ r * 900000 := mul_nonneg h0 (by norm_num)
  push_cast
  linarith

theorem genVal_upper (r : ℚ) (h0 : 0 ≤ r) (h1 : r < 1) : genVal r ≤ 999999 := by
  unfold genVal
  have hnn : (0 : ℚ) ≤ 100000 + r * 900000 := by
    have h : (0 : ℚ) ≤ r * 900000 := mul_nonneg h0 (by norm_num)
    linarith
  have hlt : (100000 : ℚ) + r * 900000 < (1000000 : ℕ) := by
    push_cast
    nlinarith
  have := (Nat.floor_lt hnn).mpr hlt
  omega

theorem genVal_eq_iff (r : ℚ) (h0 : 0 ≤ r) (k : ℕ) :
    genVal r = k ↔ ((k : ℚ) - 100000) / 900000 ≤ r ∧ r < ((k : ℚ) - 99999) / 900000 := by
  unfold genVal
  have hnn : (0 : ℚ) ≤ 100000 + r * 900000 := by
    have h : (0 : ℚ) ≤ r * 900000 := mul_nonneg h0 (by norm_num)
    linarith
  rw [Nat.floor_eq_iff hnn]
  have h9 : (0 : ℚ) < 900000 := by norm_num
  constructor
  · rintro ⟨ha, hb⟩
    constructor
    · rw [div_le_iff₀ h9]
      linarith
    · rw [lt_div_iff₀ h9]
      linarith
  · rintro ⟨ha, hb⟩
    rw [div_le_iff₀ h9] at ha
    rw [lt_div_iff₀ h9] at hb
    constructor
    · linarith
    · linarith

theorem toDigitsCore_digits_len (e : ℕ) :
    ∀ (f n : ℕ) (l : List Char), 10 ^ e ≤ n → n < 10 ^ (e + 1) → e < f →
      (Nat.toDigitsCore 10 f n l).length = e + 1 + l.length := by
  induction e with
  | zero =>
    intro f n l h1 h2 hf
    match f, hf with
    | f + 1, _ =>
      have hdiv : n / 10 = 0 := Nat.div_eq_of_lt (by simpa using h2)
      simp only [Nat.toDigitsCore, hdiv, if_true]
      simp only [List.length_cons]
      omega
  | succ e ih =>
    intro f n l h1 h2 hf
    match f, hf with
    | f + 1, hf =>
      have hne : ¬ (n / 10 = 0) := by
        have h10 : (0 : ℕ) < 10 := by norm_num
        have : 10 ^ e ≤ n / 10 := (Nat.le_div_iff_mul_le h10).mpr (by rw [← pow_succ]; exact h1)
        have hp : 0 < 10 ^ e := Nat.pos_pow_of_pos e (by norm_num)
        omega
      have hdiv1 : 10 ^ e ≤ n / 10 :=
        (Nat.le_div_iff_mul_le (by norm_num)).mpr (by rw [← pow_succ]; exact h1)
      have hdiv2 : n / 10 < 10 ^ (e + 1) :=
        Nat.div_lt_of_lt_mul (by rw [← pow_succ']; exact h2)
      simp only [Nat.toDigitsCore, hne, if_false]
      rw [ih f (n / 10) (Nat.digitChar (n % 10) :: l) hdiv1 hdiv2 (Nat.lt_of_succ_lt_succ hf)]
      simp only [List.length_cons]
      omega

theorem repr_length_six (n : ℕ) (h1 : 100000 ≤ n) (h2 : n ≤ 999999) :
    (Nat.repr n).length = 6 := by
  have h : (Nat.toDigitsCore 10 (n + 1) n []).length = 5 + 1 + ([] : List Char).length := by
    apply toDigitsCore_digits_len 5 (n + 1) n []
    · norm_num
      omega
    · norm_num
      omega
    · omega
  simp only [Nat.repr, Nat.toDigits, List.asString, String.length]
  simpa using h

theorem toDigitsCore_digits_mem (f : ℕ) :
    ∀ (n : ℕ) (l : List Char), ∀ ch ∈ Nat.toDigitsCore 10 f n l,
      (∃ m : ℕ, m < 10 ∧ ch = Nat.digitChar m) ∨ ch ∈ l := by
  induction f with
  | zero => intro n l ch hch; exact Or.inr hch
  | succ f ih =>
    intro n l ch hch
    simp only [Nat.toDigitsCore] at hch
    by_cases hdiv : n / 10 = 0
    · rw [if_pos hdiv] at hch
      rcases List.mem_cons.mp hch with h | h
      · exact Or.inl ⟨n % 10, Nat.mod_lt n (by norm_num), h⟩
      · exact Or.inr h
    · rw [if_neg hdiv] at hch
      rcases ih (n / 10) (Nat.digitChar (n % 10) :: l) ch hch with h | h
      · exact Or.inl h
      · rcases List.mem_cons.mp h with h | h
        · exact Or.inl ⟨n % 10, Nat.mod_lt n (by norm_num), h⟩
        · exact Or.inr h

theorem repr_all_digits (n : ℕ) : ∀ ch ∈ (Nat.repr n).data, ch.isDigit = true := by
  intro ch hch
  have hmem : ch ∈ Nat.toDigitsCore 10 (n + 1) n [] := by
    simpa [Nat.repr, Nat.toDigits, List.asString, String.data] using hch
  rcases toDigitsCore_digits_mem (n + 1) n [] ch hmem with ⟨m, hm, rfl⟩ | h
  · revert hm
    have : ∀ m : ℕ, m < 10 → (Nat.digitChar m).isDigit = true := by decide
    exact this m
  · exact absurd h (List.not_mem_nil ch)

/-! ### Concrete fixtures for the evaluation witnesses -/

/-- A one-account account store used by the concrete evaluation theorems. -/
def usersAX : List Account := [{ id := 1, email := "a@x.com" }]

/-- The empty initial store. -/
def st0 : Store := { codes := [], attempts := [], nextId := 0 }

/-- A store whose ledger holds five failed attempts for `a@x.com` at time 0. -/
def stLedger5 : Store :=
  { codes := [],
    attempts := List.replicate 5 { identifier := "a@x.com", attempt_time := 0 },
    nextId := 0 }

/-- A store whose ledger holds ten failed attempts for `a@x.com` at time 0. -/
def stLedger10 : Store :=
  { codes := [],
    attempts := List.replicate 10 { identifier := "a@x.com", attempt_time := 0 },
    nextId := 0 }

/-- A store holding one active code `482913` for account 1 (expires at
600000, i.e. ten minutes after creation time 0) and an empty ledger. -/
def stWithCode : Store :=
  { codes := [{ id := 1, user_id := 1, code := "482913", expires_at := 600000,
                used := false, created_at := 0 }],
    attempts := [],
    nextId := 2 }

/-- Five `request-2fa-code` calls for `a@x.com`, all at time 0, all with the
store and the mail dispatcher healthy. -/
def fiveReqsAX : List ReqInput :=
  [⟨"a@x.com", 0, "111111", true, true⟩, ⟨"a@x.com", 0, "222222", true, true⟩,
   ⟨"a@x.com", 0, "333333", true, true⟩, ⟨"a@x.com", 0, "444444", true, true⟩,
   ⟨"a@x.com", 0, "555555", true, true⟩]

/-! ### The claims -/

/-- C1: For every account and after any sequence of RequestCode calls, at most
one OneTimeCode row for that account is active (`used = false` and
`expires_at` in the future) at any instant: each issuance first deletes all
unused rows for the account and then inserts exactly one new row, so the
at-most-one-unused-row invariant is preserved by every `request-2fa-code`
call (on every branch, including store and dispatch failures), and active
rows are a subset of unused rows. -/
theorem C1_at_most_one_active (users : List Account) (st : Store) (reqs : List ReqInput)
    (hinv : atMostOneUnused st) (uid : Nat) (now : Int) :
    activeCount (applyRequests users st reqs) uid now ≤ 1 :=
  le_trans (activeCount_le_unused _ _ _)
    (applyRequests_preserves_atMostOne users reqs st hinv uid)

/-- Witness for C1: starting from the empty store, after two issuance calls
for `a@x.com` account 1 has at most one active code at time 2000. -/
theorem C1_at_most_one_active_witness :
    activeCount (applyRequests usersAX st0
      [⟨"a@x.com", 0, "111111", true, true⟩, ⟨"a@x.com", 1000, "222222", true, true⟩]) 1 2000 ≤ 1 :=
  C1_at_most_one_active usersAX st0
    [⟨"a@x.com", 0, "111111", true, true⟩, ⟨"a@x.com", 1000, "222222", true, true⟩]
    (by intro uid; simp [unusedFor, st0]) 1 2000

/-- C3 counterexample: the claim "after 5 RequestCode calls for an identifier
within 15 minutes, the 6th returns RateLimited" is false on the code: the
request handler never writes to `failed_login_attempts`, so after five
issuance calls for `a@x.com` (all at time 0, starting from the empty store)
the sixth call still returns `sent`, not `rateLimited`. -/
theorem C3_counterexample :
    (requestCode usersAX (applyRequests usersAX st0 fiveReqsAX) "a@x.com" 0 "666666" true true).outcome
        ≠ ReqOutcome.rateLimited
      ∧ (requestCode usersAX (applyRequests usersAX st0 fiveReqsAX) "a@x.com" 0 "666666"
          true true).outcome = ReqOutcome.sent := by
  decide

/-- C3 amended: `request-2fa-code` is rate limited by the failed-attempt
ledger (which only the verify handler writes), not by prior requests: with
five or more ledger rows for the identifier inside the 15-minute window the
call returns `rateLimited` and changes nothing; the call itself never
appends ledger rows; and once the recent count is back under five (e.g.
after the window has elapsed) a call for a known account with a healthy
store and dispatcher returns `sent` again. -/
theorem C3_amended_rate_limit (users : List Account) (st : Store) (email : String) (now : Int)
    (code : String) (storeOk dispatchOk : Bool) (hemail : email ≠ "") :
    (5 ≤ countRecent st.attempts email (now - fifteenMinutesMs) →
      requestCode users st email now code storeOk dispatchOk
        = { outcome := .rateLimited, store := st, dispatched := false })
    ∧ (requestCode users st email now code storeOk dispatchOk).store.attempts = st.attempts
    ∧ (countRecent st.attempts email (now - fifteenMinutesMs) < 5 →
       (∃ user, users.find? (fun u => u.email == email) = some user) →
       storeOk = true → dispatchOk = true →
       (requestCode users st email now code storeOk dispatchOk).outcome = .sent) := by
  refine ⟨?_, requestCode_attempts_eq users st email now code storeOk dispatchOk, ?_⟩
  · intro h
    unfold requestCode
    rw [if_neg hemail, if_pos h]
  · rintro h5 ⟨user, hfind⟩ hs hd
    subst hs
    subst hd
    unfold requestCode
    rw [if_neg hemail, if_neg (not_le.mpr h5), hfind]
    rfl

/-- Witness for C3 amended: with five recent failed attempts on the ledger a
request at time 0 is throttled; at time 1200000 (20 minutes later, window
elapsed) the same ledger no longer throttles and the request is sent. -/
theorem C3_amended_rate_limit_witness :
    requestCode usersAX stLedger5 "a@x.com" 0 "111111" true true
        = { outcome := .rateLimited, store := stLedger5, dispatched := false }
      ∧ (requestCode usersAX stLedger5 "a@x.com" 1200000 "222222" true true).outcome
          = ReqOutcome.sent :=
  ⟨(C3_amended_rate_limit usersAX stLedger5 "a@x.com" 0 "111111" true true
      (by decide)).1 (by decide),
   (C3_amended_rate_limit usersAX stLedger5 "a@x.com" 1200000 "222222" true true
      (by decide)).2.2 (by decide) ⟨{ id := 1, email := "a@x.com" }, by decide⟩ rfl rfl⟩

/-- C4: for an email with no matching account (and an identifier that is not
currently throttled), `request-2fa-code` returns the success-shaped `sent`
response, leaves the store completely unchanged (in particular no code row
is created and no attempt is recorded), and never invokes the mail
dispatcher. -/
theorem C4_unknown_email (users : List Account) (st : Store) (email : String) (now : Int)
    (code : String) (storeOk dispatchOk : Bool)
    (hemail : email ≠ "")
    (hrl : countRecent st.attempts email (now - fifteenMinutesMs) < 5)
    (hnone : users.find? (fun u => u.email == email) = none) :
    requestCode users st email now code storeOk dispatchOk
      = { outcome := .sent, store := st, dispatched := false } := by
  unfold requestCode
  rw [if_neg hemail, if_neg (not_le.mpr hrl), hnone]

/-- Witness for C4: a request for the unknown email `b@y.com` on the empty
store returns `sent` with the store untouched and no dispatch. -/
theorem C4_unknown_email_witness :
    requestCode usersAX st0 "b@y.com" 0 "123456" true true
      = { outcome := .sent, store := st0, dispatched := false } :=
  C4_unknown_email usersAX st0 "b@y.com" 0 "123456" true true
    (by decide) (by decide) (by decide)

/-- C6: for an identifier with at least 10 ledger rows inside the last
5 minutes, `verify-2fa-code` returns `rateLimited` whatever the submitted
code is, and the store (in particular the attempt ledger) is unchanged: no
attempt is recorded for the throttle rejection itself. -/
theorem C6_throttled_verify (users : List Account) (st : Store) (email c : String) (now : Int)
    (hemail : email ≠ "") (hcode : c ≠ "")
    (hrl : 10 ≤ countRecent st.attempts email (now - fiveMinutesMs)) :
    verifyCode users st email c now = (.rateLimited, st) :=
  verifyCode_throttled users st email c now (by push_neg; exact ⟨hemail, hcode⟩) hrl

/-- Witness for C6: with ten recent failed attempts, a verify call at time 0
is throttled even though the submitted code is the empty-store case. -/
theorem C6_throttled_verify_witness :
    verifyCode usersAX stLedger10 "a@x.com" "123456" 0 = (.rateLimited, stLedger10) :=
  C6_throttled_verify usersAX stLedger10 "a@x.com" "123456" 0
    (by decide) (by decide) (by decide)

/-- C9: `request-2fa-code` never writes to the `failed_login_attempts`
ledger, on any branch (success, throttle, unknown email, store failure,
dispatch failure): the resulting ledger is exactly the input ledger, so
request calls alone can never advance either rate-limit counter. -/
theorem C9_request_writes_no_attempts (users : List Account) (st : Store) (email : String)
    (now : Int) (code : String) (storeOk dispatchOk : Bool) :
    (requestCode users st email now code storeOk dispatchOk).store.attempts = st.attempts
      ∧ ∀ (ident : String) (since : Int),
          countRecent (requestCode users st email now code storeOk dispatchOk).store.attempts
              ident since
            = countRecent st.attempts ident since := by
  refine ⟨requestCode_attempts_eq users st email now code storeOk dispatchOk, ?_⟩
  intro ident since
  rw [requestCode_attempts_eq users st email now code storeOk dispatchOk]

/-- C5: every non-throttle rejection of `verify-2fa-code` — unknown account
for the email, no active (unused, unexpired) code on record (which includes
a stored code whose `expires_at` is in the past), or a candidate differing
from the stored code under exact string equality — appends exactly one
`failed_login_attempts` row for the caller-supplied identifier, leaves the
code table unchanged, and returns `invalid`. -/
theorem C5_reject_records_one_attempt (users : List Account) (st : Store) (email c : String)
    (now : Int)
    (hemail : email ≠ "") (hcode : c ≠ "")
    (hrl : countRecent st.attempts email (now - fiveMinutesMs) < 10)
    (hrej : users.find? (fun u => u.email == email) = none
      ∨ (∃ user, users.find? (fun u => u.email == email) = some user
          ∧ findActive st.codes user.id now = none)
      ∨ (∃ user r, users.find? (fun u => u.email == email) = some user
          ∧ findActive st.codes user.id now = some r ∧ r.code ≠ c)) :
    verifyCode users st email c now = (.invalid, recordAttempt st email now)
      ∧ (recordAttempt st email now).attempts
          = st.attempts ++ [{ identifier := email, attempt_time := now }]
      ∧ (recordAttempt st email now).codes = st.codes := by
  have hv : ¬(email = "" ∨ c = "") := by push_neg; exact ⟨hemail, hcode⟩
  refine ⟨?_, rfl, rfl⟩
  rcases hrej with hnone | ⟨user, hfind, hact⟩ | ⟨user, r, hfind, hact, hne⟩
  · exact verifyCode_unknown_user users st email c now hv hrl hnone
  · exact verifyCode_no_active users st email c now user hv hrl hfind hact
  · exact verifyCode_mismatch users st email c now user r hv hrl hfind hact hne

/-- Witness for C5: verifying a code for an expired stored code (store
`stWithCode` at time 700000, past the 600000 expiry) returns `invalid` and
appends one attempt row for `a@x.com`. -/
theorem C5_reject_records_one_attempt_witness :
    verifyCode usersAX stWithCode "a@x.com" "482913" 700000
        = (.invalid, recordAttempt stWithCode "a@x.com" 700000)
      ∧ (recordAttempt stWithCode "a@x.com" 700000).attempts
          = stWithCode.attempts ++ [{ identifier := "a@x.com", attempt_time := 700000 }]
      ∧ (recordAttempt stWithCode "a@x.com" 700000).codes = stWithCode.codes :=
  C5_reject_records_one_attempt usersAX stWithCode "a@x.com" "482913" 700000
    (by decide) (by decide) (by decide)
    (Or.inr (Or.inl ⟨{ id := 1, email := "a@x.com" }, by decide, by decide⟩))

/-- C2: for an account whose only unused code row is unexpired and matches
the candidate exactly (and whose identifier is not throttled), the first
`verify-2fa-code` call returns `verified` with the resolved account id and
the row is marked used in the resulting store; a second call with the same
code afterwards (again below the throttle) returns `invalid`, so a given
code yields `verified` at most once in sequential execution. -/
theorem C2_verified_exactly_once (users : List Account) (st : Store) (email c : String)
    (now now2 : Int) (user : Account) (r : OneTimeCode)
    (hemail : email ≠ "") (hcode : c ≠ "")
    (hfind : users.find? (fun u => u.email == email) = some user)
    (hunused : unusedFor st user.id = [r])
    (hexp : now < r.expires_at)
    (hmatch : r.code = c)
    (hrl1 : countRecent st.attempts email (now - fiveMinutesMs) < 10)
    (hrl2 : countRecent (verifyCode users st email c now).2.attempts email
        (now2 - fiveMinutesMs) < 10) :
    (verifyCode users st email c now).1 = .verified user.id
      ∧ { r with used := true } ∈ (verifyCode users st email c now).2.codes
      ∧ (verifyCode users (verifyCode users st email c now).2 email c now2).1 = .invalid := by
  have hv : ¬(email = "" ∨ c = "") := by push_neg; exact ⟨hemail, hcode⟩
  have hact : findActive st.codes user.id now = some r :=
    findActive_of_unused_singleton st user.id now r hunused hexp
  have h1 : verifyCode users st email c now
      = (.verified user.id,
          cleanup_old_failed_attempts (cleanup_expired_2fa_codes (markUsed st r.id) now) now) :=
    verifyCode_verified_eq users st email c now user r hv hrl1 hfind hact hmatch
  have hrmem : r ∈ st.codes := by
    have : r ∈ unusedFor st user.id := by rw [hunused]; exact List.mem_singleton.mpr rfl
    exact (List.mem_filter.mp this).1
  have hmarked : { r with used := true } ∈ (markUsed st r.id).codes := by
    unfold markUsed
    simp only []
    refine List.mem_map.mpr ⟨r, hrmem, ?_⟩
    rw [if_pos (beq_self_eq_true r.id)]
  have hkeep : { r with used := true } ∈
      (cleanup_expired_2fa_codes (markUsed st r.id) now).codes := by
    unfold cleanup_expired_2fa_codes
    simp only []
    refine List.mem_filter.mpr ⟨hmarked, ?_⟩
    have hlt : ¬ (r.expires_at < now - oneHourMs) := by
      have : (0 : Int) < oneHourMs := by norm_num [oneHourMs]
      omega
    simp [hlt]
  have hun1 : unusedFor (markUsed st r.id) user.id = [] :=
    unusedFor_markUsed st user.id r hunused
  have hun2 : unusedFor (cleanup_expired_2fa_codes (markUsed st r.id) now) user.id = [] :=
    unusedFor_cleanup_codes (markUsed st r.id) user.id now hun1
  have hun3 : unusedFor
      (cleanup_old_failed_attempts (cleanup_expired_2fa_codes (markUsed st r.id) now) now)
        user.id = [] := by
    rw [unusedFor_cleanup_attempts]
    exact hun2
  have hact2 : findActive
      (cleanup_old_failed_attempts (cleanup_expired_2fa_codes (markUsed st r.id) now) now).codes
        user.id now2 = none :=
    findActive_of_unused_nil _ user.id now2 hun3
  refine ⟨by rw [h1], by rw [h1]; exact hkeep, ?_⟩
  rw [h1] at hrl2 ⊢
  exact congrArg Prod.fst
    (verifyCode_no_active users _ email c now2 user hv hrl2 hfind hact2)

/-- Witness for C2: the scenario of the spec — account 1 holds the active
code `482913`; verifying `482913` at time 0 yields `verified 1` and marks
the row used; verifying `482913` again at time 1000 yields `invalid`. -/
theorem C2_verified_exactly_once_witness :
    (verifyCode usersAX stWithCode "a@x.com" "482913" 0).1 = VerOutcome.verified 1
      ∧ ({ id := 1, user_id := 1, code := "482913", expires_at := 600000,
            used := true, created_at := 0 } : OneTimeCode)
          ∈ (verifyCode usersAX stWithCode "a@x.com" "482913" 0).2.codes
      ∧ (verifyCode usersAX (verifyCode usersAX stWithCode "a@x.com" "482913" 0).2
          "a@x.com" "482913" 1000).1 = VerOutcome.invalid :=
  C2_verified_exactly_once usersAX stWithCode "a@x.com" "482913" 0 1000
    { id := 1, email := "a@x.com" }
    { id := 1, user_id := 1, code := "482913", expires_at := 600000,
      used := false, created_at := 0 }
    (by decide) (by decide) (by decide) (by decide) (by decide) (by decide)
    (by decide) (by decide)

/-- C10: whenever `verify-2fa-code` returns `invalid` or `rateLimited`, the
`two_factor_codes` table is left unchanged — no row is marked used, deleted
or otherwise mutated on any rejection path; the table is mutated (mark-used
and expiry cleanup) only on the `verified` path. -/
theorem C10_reject_leaves_codes (users : List Account) (st : Store) (email c : String)
    (now : Int) (out : VerOutcome) (st' : Store)
    (h : verifyCode users st email c now = (out, st'))
    (hout : out = .invalid ∨ out = .rateLimited) :
    st'.codes = st.codes := by
  unfold verifyCode at h
  split at h
  · injection h with h1 h2
    subst h1
    rcases hout with h3 | h3 <;> simp at h3
  split at h
  · injection h with h1 h2
    subst h2
    rfl
  split at h
  · injection h with h1 h2
    subst h2
    rfl
  next user heq =>
    split at h
    · injection h with h1 h2
      subst h2
      rfl
    next rrow heq2 =>
      split at h
      · injection h with h1 h2
        subst h2
        rfl
      · injection h with h1 h2
        subst h1
        rcases hout with h3 | h3 <;> simp at h3

/-- Witness for C10: the rejected verify call for the unknown email
`b@y.com` leaves the code table of the empty store unchanged. -/
theorem C10_reject_leaves_codes_witness :
    (verifyCode usersAX st0 "b@y.com" "123456" 0).2.codes = st0.codes :=
  C10_reject_leaves_codes usersAX st0 "b@y.com" "123456" 0
    (verifyCode usersAX st0 "b@y.com" "123456" 0).1
    (verifyCode usersAX st0 "b@y.com" "123456" 0).2
    rfl (Or.inl (by decide))

/-- C7 counterexample: the claim that the generated code is uniformly
distributed over `000000`–`999999` is false on the code: the generator
computes `Math.floor(100000 + Math.random() * 900000)`, so no draw
`r ∈ [0, 1)` of `Math.random()` can ever produce a value below 100000 —
the sixth of the code space (`000000`–`099999`) claimed to be reachable
has probability zero. -/
theorem C7_counterexample : ¬ ∃ r : ℚ, 0 ≤ r ∧ r < 1 ∧ genVal r < 100000 := by
  rintro ⟨r, h0, _, hlt⟩
  have := genVal_lower r h0
  omega

/-- C7 amended: every invocation of the code generator produces the decimal
string of a value in `100000`–`999999` inclusive — hence a string of exactly
6 ASCII digits, never with a leading zero — and (with `Math.random()`
idealised as uniform on `[0, 1)`) the value is uniformly distributed over
`100000`–`999999`: the draws producing each value `k` form the half-open
interval `[(k-100000)/900000, (k-99999)/900000)`, of equal width `1/900000`
for every `k` in range and empty for every `k` outside it. -/
theorem C7_amended_generator (r : ℚ) (h0 : 0 ≤ r) (h1 : r < 1) :
    100000 ≤ genVal r ∧ genVal r ≤ 999999
      ∧ genCode r = Nat.repr (genVal r)
      ∧ (genCode r).length = 6
      ∧ (∀ ch ∈ (genCode r).data, ch.isDigit = true)
      ∧ ∀ k : ℕ, genVal r = k
          ↔ ((k : ℚ) - 100000) / 900000 ≤ r ∧ r < ((k : ℚ) - 99999) / 900000 := by
  have hlo := genVal_lower r h0
  have hhi := genVal_upper r h0 h1
  exact ⟨hlo, hhi, rfl, repr_length_six (genVal r) hlo hhi,
    repr_all_digits (genVal r), fun k => genVal_eq_iff r h0 k⟩

/-- Witness for C7 amended at the draw `r = 1/2` (which yields 550000). -/
theorem C7_amended_generator_witness :
    100000 ≤ genVal (1/2) ∧ genVal (1/2) ≤ 999999
      ∧ genCode (1/2) = Nat.repr (genVal (1/2))
      ∧ (genCode (1/2)).length = 6
      ∧ (∀ ch ∈ (genCode (1/2)).data, ch.isDigit = true)
      ∧ ∀ k : ℕ, genVal (1/2) = k
          ↔ ((k : ℚ) - 100000) / 900000 ≤ (1/2 : ℚ)
            ∧ (1/2 : ℚ) < ((k : ℚ) - 99999) / 900000 :=
  C7_amended_generator (1/2) (by norm_num) (by norm_num)

theorem verifyRead_proceed (users : List Account) (st : Store) (email c : String) (now : Int)
    (user : Account) (r : OneTimeCode)
    (hv : ¬(email = "" ∨ c = ""))
    (hrl : countRecent st.attempts email (now - fiveMinutesMs) < 10)
    (hfind : users.find? (fun u => u.email == email) = some user)
    (hact : findActive st.codes user.id now = some r)
    (hmatch : r.code = c) :
    verifyRead users st email c now = .proceed user.id r.id := by
  unfold verifyRead
  rw [if_neg hv, if_neg (not_le.mpr hrl), hfind]
  simp only [hact]
  rw [if_neg (by simp [hmatch])]

theorem verifyCode_eq_read_write (users : List Account) (st : Store) (email code : String)
    (now : Int) :
    verifyCode users st email code now
      = match verifyRead users st email code now with
        | .reject out st1 => (out, st1)
        | .proceed uid cid => verifyWrite st uid cid now := by
  unfold verifyCode verifyRead verifyWrite
  by_cases h1 : email = "" ∨ code = ""
  · simp only [if_pos h1]
  · simp only [if_neg h1]
    by_cases h2 : 10 ≤ countRecent st.attempts email (now - fiveMinutesMs)
    · simp only [if_pos h2]
    · simp only [if_neg h2]
      cases hfind : users.find? (fun u => u.email == email) with
      | none => rfl
      | some user =>
        dsimp only
        cases hact : findActive st.codes user.id now with
        | none => rfl
        | some storedCode =>
          dsimp only
          by_cases h3 : storedCode.code ≠ code
          · simp only [if_pos h3]
          · simp only [if_neg h3]

/-- C8 counterexample: the claim that at most one of two concurrent
`verify-2fa-code` calls with the same valid code receives `verified` (by
virtue of an atomic compare-and-set on `used`) is false on the code: the
handler reads the row and then issues an unconditional
`update({used: true}).eq("id", ...)`, so in the interleaving where both
calls read before either writes, both callers receive `verified` —
concretely for the store holding the active code `482913`. -/
theorem C8_counterexample :
    racyVerifyPair usersAX stWithCode "a@x.com" "482913" 0
      = (VerOutcome.verified 1, VerOutcome.verified 1) := by
  decide

/-- C8 amended: the mark-used step of `verify-2fa-code` is an unconditional
update by row id, not a compare-and-set on `used`, so under concurrent
calls submitting the same valid code in which both reads precede both
writes, every caller receives `verified`; at most one `verified` holds only
for sequential execution. -/
theorem C8_amended_race_both_verified (users : List Account) (st : Store) (email c : String)
    (now : Int) (user : Account) (r : OneTimeCode)
    (hemail : email ≠ "") (hcode : c ≠ "")
    (hrl : countRecent st.attempts email (now - fiveMinutesMs) < 10)
    (hfind : users.find? (fun u => u.email == email) = some user)
    (hact : findActive st.codes user.id now = some r)
    (hmatch : r.code = c) :
    racyVerifyPair users st email c now = (.verified user.id, .verified user.id) := by
  have hv : ¬(email = "" ∨ c = "") := by push_neg; exact ⟨hemail, hcode⟩
  unfold racyVerifyPair
  rw [verifyRead_proceed users st email c now user r hv hrl hfind hact hmatch]
  rfl

/-- Witness for C8 amended: both racing verifications of `482913` against
the store holding that active code succeed. -/
theorem C8_amended_race_both_verified_witness :
    racyVerifyPair usersAX stWithCode "a@x.com" "482913" 0
      = (VerOutcome.verified 1, VerOutcome.verified 1) :=
  C8_amended_race_both_verified usersAX stWithCode "a@x.com" "482913" 0
    { id := 1, email := "a@x.com" }
    { id := 1, user_id := 1, code := "482913", expires_at := 600000,
      used := false, created_at := 0 }
    (by decide) (by decide) (by decide) (by decide) (by decide) (by decide)
